import Mathlib

/-!
Verification development for the e-commerce sales analysis pipeline in
`src/analysis.py`.  The script loads a CSV of transaction records, derives
calendar columns, and prints seven grouped breakdowns plus a set of key
insights.  We model the data frame as a list of records together with the
list of column names (a column access on a missing column raises `KeyError`
in pandas, which we mirror), numeric values as rationals, and each analysis
function as a Lean function returning the printed lines together with an
optional Python-level error.

Rational arithmetic is expressed through `mkRat`-level operations (`qadd`,
`qmul`, `qdiv`, ...) so that all definitions evaluate by kernel reduction;
bridge lemmas below identify them with the field operations of `ℚ`.
-/

namespace SalesAnalysis

/-- Rational addition, computed on numerator/denominator form.
Agrees with `+` on `ℚ` (see `qadd_eq_add`). -/
def qadd (a b : ℚ) : ℚ := mkRat (a.num * b.den + b.num * a.den) (a.den * b.den)

/-- Rational multiplication on numerator/denominator form (see `qmul_eq_mul`). -/
def qmul (a b : ℚ) : ℚ := mkRat (a.num * b.num) (a.den * b.den)

/-- Rational division on numerator/denominator form; division by zero gives zero,
as for `/` on `ℚ` (see `qdiv_eq_div`). -/
def qdiv (a b : ℚ) : ℚ :=
  if b.num < 0 then mkRat (-(a.num * b.den)) (a.den * b.num.natAbs)
  else mkRat (a.num * b.den) (a.den * b.num.natAbs)

/-- Sum of a list of rationals (see `qsumL_eq_sum`). -/
def qsumL (l : List ℚ) : ℚ := l.foldr qadd 0

/-- Floor of a rational (see `qfloor_eq_floor`). -/
def qfloor (q : ℚ) : ℤ := if q.den = 1 then q.num else q.num / (q.den : ℤ)

/-- Round half to even to the nearest integer: the rounding mode used by
Python's `round`, `numpy.round` and float formatting.  The fractional part
`q - ⌊q⌋ = r / den` is compared with `1/2` through `2 * r` versus `den`. -/
def rhe (q : ℚ) : ℤ :=
  let f := qfloor q
  let r := q.num - f * (q.den : ℤ)
  if 2 * r < (q.den : ℤ) then f
  else if (q.den : ℤ) < 2 * r then f + 1
  else if f % 2 = 0 then f else f + 1

/-- `round(x, 2)` / `.round(2)`: round half to even at two decimal places. -/
def round2 (q : ℚ) : ℚ := qdiv ((rhe (qmul q 100) : ℤ) : ℚ) 100

/-- Mean of a series, as pandas computes it on a nonempty column. -/
def seriesMean (l : List ℚ) : ℚ := qdiv (qsumL l) ((l.length : ℤ) : ℚ)

/-- Mean of a possibly empty series: pandas yields float NaN on an empty
selection, which we model as `none`. -/
def meanQ (l : List ℚ) : Option ℚ :=
  if l.isEmpty then none else some (seriesMean l)

/-- Median of a possibly empty series, with linear interpolation between the
two middle elements for even length, as pandas computes it. -/
def medianQ (l : List ℚ) : Option ℚ :=
  let s := List.insertionSort (· ≤ ·) l
  let n := l.length
  if n = 0 then none
  else if n % 2 = 1 then s[n / 2]?
  else match s[n / 2 - 1]?, s[n / 2]? with
    | some a, some b => some (qdiv (qadd a b) 2)
    | _, _ => none

/-- Lexicographic comparison of character lists by Unicode code point,
matching Python string comparison. -/
def charsLe : List Char → List Char → Bool
  | [], _ => true
  | _ :: _, [] => false
  | a :: as, b :: bs =>
    if a.val < b.val then true
    else if b.val < a.val then false
    else charsLe as bs

/-- String comparison by code points, as Python and pandas sort strings. -/
def strLeB (a b : String) : Bool := charsLe a.toList b.toList

/-- The `Prop` form of `strLeB`, used as the sorting relation on string keys. -/
def strLeP (a b : String) : Prop := strLeB a b = true

instance : DecidableRel strLeP := fun a b => inferInstanceAs (Decidable (_ = true))

/-- Whether `pat` is a prefix of `s`. -/
def strStartsWith (s pat : String) : Bool := pat.toList.isPrefixOf s.toList

/-- Whether `pat` occurs as a substring of `s`. -/
def strContainsB (s pat : String) : Bool :=
  (List.range (s.toList.length + 1)).any (fun i => pat.toList.isPrefixOf (s.toList.drop i))

/-- Insert a thousands separator after every third character, the input being
the reversed digit string. -/
def chunk3 : List Char → List Char
  | a :: b :: c :: d :: rest => a :: b :: c :: ',' :: chunk3 (d :: rest)
  | l => l

/-- Render a natural number with thousands separators, as Python's format
specifier with a comma does. -/
def natComma (n : Nat) : String := String.mk ((chunk3 (toString n).toList.reverse).reverse)

/-- Render an integer (used for numerators of displayed values). -/
def intStr (i : ℤ) : String := if i < 0 then "-" ++ toString i.natAbs else toString i.natAbs

/-- Two fractional digits out of a cents value. -/
def centsStr (n : Nat) : String :=
  (if n % 100 < 10 then "0" else "") ++ toString (n % 100)

/-- Python float formatting with two decimal places: round half to even at two
decimals, then print with exactly two fractional digits. -/
def fmt2 (q : ℚ) : String :=
  let c := rhe (qmul q 100)
  if c < 0 then "-" ++ toString ((-c).toNat / 100) ++ "." ++ centsStr (-c).toNat
  else toString (c.toNat / 100) ++ "." ++ centsStr c.toNat

/-- Python float formatting with two decimal places and thousands separators
in the integer part. -/
def fmtC2 (q : ℚ) : String :=
  let c := rhe (qmul q 100)
  if c < 0 then "-" ++ natComma ((-c).toNat / 100) ++ "." ++ centsStr (-c).toNat
  else natComma (c.toNat / 100) ++ "." ++ centsStr c.toNat

/-- Formatting of a possibly-NaN value: Python prints float NaN as `nan`
under numeric format specifiers. -/
def fmtOpt2 (o : Option ℚ) : String :=
  match o with
  | none => "nan"
  | some q => fmt2 q

/-- Comma-separated variant of `fmtOpt2`. -/
def fmtOptC2 (o : Option ℚ) : String :=
  match o with
  | none => "nan"
  | some q => fmtC2 q

/-- Abbreviated Python `repr` of a float: integral values print with a
trailing `.0`; other values are shown with two decimals. -/
def pyFloatRepr (q : ℚ) : String :=
  if q.den = 1 then intStr q.num ++ ".0" else fmt2 q

/-- A calendar date as parsed by `pd.to_datetime`. -/
structure Date where
  year : Nat
  month : Nat
  day : Nat
deriving DecidableEq, Repr

/-- Quarter of the year holding this date, as `dt.quarter` derives it. -/
def Date.quarter (d : Date) : Nat := (d.month - 1) / 3 + 1

/-- Day-of-week name via Zeller's congruence, as `dt.day_name()` computes it. -/
def Date.dayName (d : Date) : String :=
  let m := if d.month < 3 then d.month + 12 else d.month
  let y := if d.month < 3 then d.year - 1 else d.year
  let h := (d.day + 13 * (m + 1) / 5 + y % 100 + y % 100 / 4 + y / 100 / 4 + 5 * (y / 100)) % 7
  match h with
  | 0 => "Saturday"
  | 1 => "Sunday"
  | 2 => "Monday"
  | 3 => "Tuesday"
  | 4 => "Wednesday"
  | 5 => "Thursday"
  | _ => "Friday"

/-- Chronological comparison of dates. -/
def Date.leB (a b : Date) : Bool :=
  if a.year = b.year then
    if a.month = b.month then decide (a.day ≤ b.day)
    else decide (a.month < b.month)
  else decide (a.year < b.year)

/-- `series.min()` on a date column: `none` on an empty column (pandas `NaT`). -/
def dateMin : List Date → Option Date
  | [] => none
  | d :: ds => some (ds.foldl (fun a b => if Date.leB b a then b else a) d)

/-- `series.max()` on a date column: `none` on an empty column (pandas `NaT`). -/
def dateMax : List Date → Option Date
  | [] => none
  | d :: ds => some (ds.foldl (fun a b => if Date.leB a b then b else a) d)

/-- ISO rendering of a date, as `Timestamp.date()` prints. -/
def fmtDate (d : Date) : String :=
  let p2 := fun (n : Nat) => (if n < 10 then "0" else "") ++ toString n
  let p4 := fun (n : Nat) =>
    (if n < 10 then "000" else if n < 100 then "00" else if n < 1000 then "0" else "") ++ toString n
  p4 d.year ++ "-" ++ p2 d.month ++ "-" ++ p2 d.day

/-- One transaction record of the input CSV (§3 of the design): the nine
required columns. -/
structure Row where
  date : Date
  product : String
  category : String
  region : String
  payment_method : String
  customer_id : String
  quantity : Nat
  discount_percent : ℚ
  final_price : ℚ
deriving DecidableEq, Repr

/-- A loaded record: the raw row extended with the derived columns `month`,
`quarter` and `day_of_week` that `load_data` appends. -/
structure LRow extends Row where
  month : Nat
  quarter : Nat
  day_of_week : String
deriving DecidableEq, Repr

/-- The derivation `load_data` performs per record (lines 28-30 of the source). -/
def deriveRow (r : Row) : LRow :=
  { r with month := r.date.month, quarter := r.date.quarter, day_of_week := r.date.dayName }

/-- Python-level exceptions the script can raise.  There is no wrapper
exception type in the source; pandas errors propagate as-is. -/
inductive PyError where
  | fileNotFound
  | keyError (col : String)
  | valueError (msg : String)
deriving DecidableEq, Repr

/-- The input to `load_data`: whether the CSV file exists at the path, the
column names present in its header, and its parsed records. -/
structure LoadInput where
  fileExists : Bool
  columns : List String
  rawRows : List Row
deriving Repr

/-- An in-memory data frame: column names plus loaded records.  Accessing a
column that is absent from `columns` raises `KeyError`, as in pandas. -/
structure Table where
  columns : List String
  rows : List LRow
deriving DecidableEq, Repr

/-- The columns the design (§4.1) requires of an input file. -/
def requiredColumns : List String :=
  ["date", "product", "category", "region", "payment_method", "customer_id",
   "quantity", "discount_percent", "final_price"]

/-- Columns of a successfully loaded table: the input header plus the three
derived columns. -/
def loadedColumns (cs : List String) : List String := cs ++ ["month", "quarter", "day_of_week"]

/-- `load_data` (lines 16-31): `pd.read_csv` raises `FileNotFoundError` when
the path does not exist; the only column the loader itself touches is `date`
(a missing `date` raises `KeyError`); no other column is validated at load
time.  On success the derived columns are appended. -/
def load_data (inp : LoadInput) : Except PyError Table :=
  if inp.fileExists then
    if inp.columns.contains "date" then
      .ok { columns := loadedColumns inp.columns, rows := inp.rawRows.map deriveRow }
    else .error (.keyError "date")
  else .error .fileNotFound

/-- First-occurrence list of the distinct values of a column. -/
def uniqueKeys {κ : Type} [DecidableEq κ] (l : List κ) : List κ :=
  l.foldl (fun acc a => if a ∈ acc then acc else acc ++ [a]) []

/-- `df.groupby(key)` with the default `sort=True`: the observed keys in
ascending key order, each paired with the rows carrying that key in original
order.  A key with no matching rows never appears. -/
def groupby {κ : Type} [DecidableEq κ] (le : κ → κ → Prop) [DecidableRel le]
    (key : LRow → κ) (rows : List LRow) : List (κ × List LRow) :=
  (List.insertionSort le (uniqueKeys (rows.map key))).map
    (fun k => (k, rows.filter (fun x => decide (key x = k))))

/-- `sort_values(by, ascending=False)`: sort rows of a stats table by a
rational column, descending. -/
def sortDescBy {α : Type} (f : α → ℚ) (l : List α) : List α :=
  @List.insertionSort α (fun a b => f b ≤ f a) (fun a b => inferInstanceAs (Decidable (_ ≤ _))) l

/-- `series.idxmax()` paired with the value: the first entry attaining the
maximum, `none` on an empty series (pandas raises `ValueError`). -/
def idxmax {κ β : Type} [LinearOrder β] : List (κ × β) → Option (κ × β)
  | [] => none
  | p :: ps => some (ps.foldl (fun best x => if best.2 < x.2 then x else best) p)

/-- `series.idxmin()` paired with the value; `none` on an empty series. -/
def idxmin {κ β : Type} [LinearOrder β] : List (κ × β) → Option (κ × β)
  | [] => none
  | p :: ps => some (ps.foldl (fun best x => if x.2 < best.2 then x else best) p)

/-- `series.max()`: `none` on an empty series. -/
def listMax {β : Type} [LinearOrder β] : List β → Option β
  | [] => none
  | x :: xs => some (xs.foldl max x)

/-- `series.min()`: `none` on an empty series. -/
def listMin {β : Type} [LinearOrder β] : List β → Option β
  | [] => none
  | x :: xs => some (xs.foldl min x)

/-- `series.nunique()`: number of distinct values. -/
def nunique (l : List String) : Nat := (uniqueKeys l).length

/-- One row of the `product_stats` table (lines 64-70): grouped by `product`,
with sum/mean/count of `final_price`, sum of `quantity` and mean of
`discount_percent`, all rounded to two decimals. -/
structure ProductRow where
  product : String
  totalRevenue : ℚ
  avgPrice : ℚ
  transactions : Nat
  unitsSold : Nat
  avgDiscountPct : ℚ
deriving DecidableEq, Repr

/-- One row of the `region_stats` table (lines 89-94). -/
structure RegionRow where
  region : String
  totalRevenue : ℚ
  avgTransaction : ℚ
  transactions : Nat
  unitsSold : Nat
deriving DecidableEq, Repr

/-- One row of the `category_stats` table (lines 137-143). -/
structure CategoryRow where
  category : String
  totalRevenue : ℚ
  avgPrice : ℚ
  transactions : Nat
  unitsSold : Nat
  avgDiscountPct : ℚ
deriving DecidableEq, Repr

/-- One row of the `discount_stats` table (lines 160-165). -/
structure DiscountRow where
  discountPct : ℚ
  totalRevenue : ℚ
  avgPrice : ℚ
  transactions : Nat
  unitsSold : Nat
deriving DecidableEq, Repr

/-- One row of the `payment_stats` table (lines 189-193). -/
structure PaymentRow where
  method : String
  totalRevenue : ℚ
  avgTransaction : ℚ
  count : Nat
deriving DecidableEq, Repr

/-- `product_stats` (lines 64-71), already sorted by total revenue descending. -/
def product_stats (rows : List LRow) : List ProductRow :=
  sortDescBy (fun r => r.totalRevenue)
    ((groupby strLeP (fun r => r.product) rows).map (fun g =>
      { product := g.1
        totalRevenue := round2 (qsumL (g.2.map (fun r => r.final_price)))
        avgPrice := round2 (seriesMean (g.2.map (fun r => r.final_price)))
        transactions := g.2.length
        unitsSold := (g.2.map (fun r => r.quantity)).sum
        avgDiscountPct := round2 (seriesMean (g.2.map (fun r => r.discount_percent))) }))

/-- `region_stats` (lines 89-95), sorted by total revenue descending. -/
def region_stats (rows : List LRow) : List RegionRow :=
  sortDescBy (fun r => r.totalRevenue)
    ((groupby strLeP (fun r => r.region) rows).map (fun g =>
      { region := g.1
        totalRevenue := round2 (qsumL (g.2.map (fun r => r.final_price)))
        avgTransaction := round2 (seriesMean (g.2.map (fun r => r.final_price)))
        transactions := g.2.length
        unitsSold := (g.2.map (fun r => r.quantity)).sum }))

/-- `category_stats` (lines 137-144), sorted by total revenue descending. -/
def category_stats (rows : List LRow) : List CategoryRow :=
  sortDescBy (fun r => r.totalRevenue)
    ((groupby strLeP (fun r => r.category) rows).map (fun g =>
      { category := g.1
        totalRevenue := round2 (qsumL (g.2.map (fun r => r.final_price)))
        avgPrice := round2 (seriesMean (g.2.map (fun r => r.final_price)))
        transactions := g.2.length
        unitsSold := (g.2.map (fun r => r.quantity)).sum
        avgDiscountPct := round2 (seriesMean (g.2.map (fun r => r.discount_percent))) }))

/-- `discount_stats` (lines 160-165): grouped by `discount_percent`, left in
ascending key order — the source applies no `sort_values` here. -/
def discount_stats (rows : List LRow) : List DiscountRow :=
  (groupby (· ≤ ·) (fun r => r.discount_percent) rows).map (fun g =>
    { discountPct := g.1
      totalRevenue := round2 (qsumL (g.2.map (fun r => r.final_price)))
      avgPrice := round2 (seriesMean (g.2.map (fun r => r.final_price)))
      transactions := g.2.length
      unitsSold := (g.2.map (fun r => r.quantity)).sum })

/-- `payment_stats` (lines 189-194), sorted by total revenue descending. -/
def payment_stats (rows : List LRow) : List PaymentRow :=
  sortDescBy (fun r => r.totalRevenue)
    ((groupby strLeP (fun r => r.payment_method) rows).map (fun g =>
      { method := g.1
        totalRevenue := round2 (qsumL (g.2.map (fun r => r.final_price)))
        avgTransaction := round2 (seriesMean (g.2.map (fun r => r.final_price)))
        count := g.2.length }))

/-- `monthly_revenue` (line 113): revenue summed per month, rounded, keys in
ascending month order. -/
def monthly_revenue (rows : List LRow) : List (Nat × ℚ) :=
  (groupby (· ≤ ·) (fun r => r.month) rows).map
    (fun g => (g.1, round2 (qsumL (g.2.map (fun r => r.final_price)))))

/-- `quarterly_revenue` (line 120): revenue summed per quarter, rounded, keys
in ascending quarter order. -/
def quarterly_revenue (rows : List LRow) : List (Nat × ℚ) :=
  (groupby (· ≤ ·) (fun r => r.quarter) rows).map
    (fun g => (g.1, round2 (qsumL (g.2.map (fun r => r.final_price)))))

/-- The banner rule `"=" * 60`. -/
def hr : String := String.mk (List.replicate 60 '=')

/-- The `ValueError` pandas raises for `idxmax`/`idxmin` on an empty series. -/
def argmaxErr : PyError := .valueError "attempt to get argmax of an empty sequence"

/-- The `ValueError` raised by `NaT.date()` when a date column is empty. -/
def natErr : PyError := .valueError "NaTType does not support date"

/-- First requested column absent from the table, if any: the `KeyError`
pandas would raise. -/
def columnsMissing (df : Table) (cs : List String) : Option PyError :=
  (cs.find? (fun c => !(df.columns.contains c))).map PyError.keyError

/-- Rendering of one `product_stats` row inside `print(product_stats)`
(column alignment of the pandas frame repr is abstracted to single spaces). -/
def renderProductRow (r : ProductRow) : String :=
  r.product ++ " " ++ fmt2 r.totalRevenue ++ " " ++ fmt2 r.avgPrice ++ " " ++
    toString r.transactions ++ " " ++ toString r.unitsSold ++ " " ++ fmt2 r.avgDiscountPct

/-- Rendering of one `region_stats` row. -/
def renderRegionRow (r : RegionRow) : String :=
  r.region ++ " " ++ fmt2 r.totalRevenue ++ " " ++ fmt2 r.avgTransaction ++ " " ++
    toString r.transactions ++ " " ++ toString r.unitsSold

/-- Rendering of one `category_stats` row. -/
def renderCategoryRow (r : CategoryRow) : String :=
  r.category ++ " " ++ fmt2 r.totalRevenue ++ " " ++ fmt2 r.avgPrice ++ " " ++
    toString r.transactions ++ " " ++ toString r.unitsSold ++ " " ++ fmt2 r.avgDiscountPct

/-- Rendering of one `discount_stats` row. -/
def renderDiscountRow (r : DiscountRow) : String :=
  pyFloatRepr r.discountPct ++ " " ++ fmt2 r.totalRevenue ++ " " ++ fmt2 r.avgPrice ++ " " ++
    toString r.transactions ++ " " ++ toString r.unitsSold

/-- Rendering of one `payment_stats` row. -/
def renderPaymentRow (r : PaymentRow) : String :=
  r.method ++ " " ++ fmt2 r.totalRevenue ++ " " ++ fmt2 r.avgTransaction ++ " " ++
    toString r.count

/-- `basic_statistics` (lines 33-51): the printed lines and the error that
interrupts them, if any.  Each print accesses its column when its f-string is
evaluated, so a missing column interrupts after the earlier lines; on an
empty table every aggregate prints (`0`, `nan`, ...) until the date-range
line, where `NaT.date()` raises `ValueError`. -/
def basic_statistics (df : Table) : List String × Option PyError :=
  let hdr := [hr, "BASIC STATISTICS", hr]
  if !(df.columns.contains "final_price") then (hdr, some (.keyError "final_price")) else
  let prices := df.rows.map (fun r => r.final_price)
  let l1 := "Total Revenue: $" ++ fmtC2 (qsumL prices)
  let l2 := "Average Transaction Value: $" ++ fmtOpt2 (meanQ prices)
  let l3 := "Median Transaction Value: $" ++ fmtOpt2 (medianQ prices)
  if !(df.columns.contains "quantity") then (hdr ++ [l1, l2, l3], some (.keyError "quantity")) else
  let l4 := "Total Units Sold: " ++ natComma (df.rows.map (fun r => r.quantity)).sum
  let l5 := "Total Transactions: " ++ natComma df.rows.length
  if !(df.columns.contains "customer_id") then
    (hdr ++ [l1, l2, l3, l4, l5], some (.keyError "customer_id")) else
  let l6 := "Unique Customers: " ++ natComma (nunique (df.rows.map (fun r => r.customer_id)))
  if !(df.columns.contains "discount_percent") then
    (hdr ++ [l1, l2, l3, l4, l5, l6], some (.keyError "discount_percent")) else
  let l7 := "Average Discount: " ++ fmtOpt2 (meanQ (df.rows.map (fun r => r.discount_percent))) ++ "%"
  if !(df.columns.contains "date") then
    (hdr ++ [l1, l2, l3, l4, l5, l6, l7], some (.keyError "date")) else
  match dateMin (df.rows.map (fun r => r.date)), dateMax (df.rows.map (fun r => r.date)) with
  | some d1, some d2 =>
    (hdr ++ [l1, l2, l3, l4, l5, l6, l7,
      "Date Range: " ++ fmtDate d1 ++ " to " ++ fmtDate d2, ""], none)
  | _, _ => (hdr ++ [l1, l2, l3, l4, l5, l6, l7], some natErr)

/-- `product_analysis` (lines 53-76).  The stats table prints, then line 74
calls `idxmax` on the `Units Sold` column, which raises `ValueError` on an
empty frame. -/
def product_analysis (df : Table) : List String × Option PyError :=
  let hdr := [hr, "PRODUCT PERFORMANCE ANALYSIS", hr]
  match columnsMissing df ["product", "final_price", "quantity", "discount_percent"] with
  | some e => (hdr, some e)
  | none =>
    let tbl := product_stats df.rows
    let tLines := tbl.map renderProductRow
    match idxmax (tbl.map (fun r => (r.product, r.unitsSold))),
        listMax (tbl.map (fun r => r.unitsSold)),
        idxmax (tbl.map (fun r => (r.product, r.totalRevenue))),
        listMax (tbl.map (fun r => r.totalRevenue)) with
    | some bu, some mu, some br, some mr =>
      (hdr ++ tLines ++ ["",
        "Best Selling Product: " ++ bu.1 ++ " (" ++ toString mu ++ " units)",
        "Highest Revenue Product: " ++ br.1 ++ " ($" ++ fmtC2 mr ++ ")", ""], none)
    | _, _, _, _ => (hdr ++ tLines, some argmaxErr)

/-- `regional_analysis` (lines 78-99). -/
def regional_analysis (df : Table) : List String × Option PyError :=
  let hdr := [hr, "REGIONAL ANALYSIS", hr]
  match columnsMissing df ["region", "final_price", "quantity"] with
  | some e => (hdr, some e)
  | none =>
    let tbl := region_stats df.rows
    let tLines := tbl.map renderRegionRow
    match idxmax (tbl.map (fun r => (r.region, r.totalRevenue))),
        listMax (tbl.map (fun r => r.totalRevenue)) with
    | some tr, some mr =>
      (hdr ++ tLines ++ ["", "Top Region: " ++ tr.1 ++ " ($" ++ fmtC2 mr ++ ")", ""], none)
    | _, _ => (hdr ++ tLines, some argmaxErr)

/-- `temporal_analysis` (lines 101-124).  Monthly revenue prints with best
and worst month; quarterly revenue prints with a best quarter only — the
source has no worst-quarter line. -/
def temporal_analysis (df : Table) : List String × Option PyError :=
  let hdr := [hr, "TEMPORAL ANALYSIS", hr]
  match columnsMissing df ["month", "final_price"] with
  | some e => (hdr, some e)
  | none =>
    let mrev := monthly_revenue df.rows
    let mLines := ["", "Monthly Revenue:"] ++ mrev.map (fun p => toString p.1 ++ " " ++ fmt2 p.2)
    match idxmax mrev, listMax (mrev.map (fun p => p.2)),
        idxmin mrev, listMin (mrev.map (fun p => p.2)) with
    | some bm, some bmv, some wm, some wmv =>
      let bLine := "Best Month: Month " ++ toString bm.1 ++ " ($" ++ fmtC2 bmv ++ ")"
      let wLine := "Worst Month: Month " ++ toString wm.1 ++ " ($" ++ fmtC2 wmv ++ ")"
      match columnsMissing df ["quarter"] with
      | some e => (hdr ++ mLines ++ [bLine, wLine], some e)
      | none =>
        let qrev := quarterly_revenue df.rows
        let qLines := ["", "Quarterly Revenue:"] ++
          qrev.map (fun p => toString p.1 ++ " " ++ fmt2 p.2)
        match idxmax qrev, listMax (qrev.map (fun p => p.2)) with
        | some bq, some bqv =>
          (hdr ++ mLines ++ [bLine, wLine] ++ qLines ++
            ["Best Quarter: Q" ++ toString bq.1 ++ " ($" ++ fmtC2 bqv ++ ")", ""], none)
        | _, _ => (hdr ++ mLines ++ [bLine, wLine] ++ qLines, some argmaxErr)
    | _, _, _, _ => (hdr ++ mLines, some argmaxErr)

/-- `category_analysis` (lines 126-147): table only, no highlight line. -/
def category_analysis (df : Table) : List String × Option PyError :=
  let hdr := [hr, "CATEGORY ANALYSIS", hr]
  match columnsMissing df ["category", "final_price", "quantity", "discount_percent"] with
  | some e => (hdr, some e)
  | none => (hdr ++ (category_stats df.rows).map renderCategoryRow ++ [""], none)

/-- `discount_analysis` (lines 149-176): the stats table in ascending
discount order, then the revenue-distribution lines.  No highlight line; no
failure on an empty table (the loop body never runs). -/
def discount_analysis (df : Table) : List String × Option PyError :=
  let hdr := [hr, "DISCOUNT IMPACT ANALYSIS", hr]
  match columnsMissing df ["discount_percent", "final_price", "quantity"] with
  | some e => (hdr, some e)
  | none =>
    let tbl := discount_stats df.rows
    let total := qsumL (df.rows.map (fun r => r.final_price))
    let distLines := tbl.map (fun r =>
      "  " ++ pyFloatRepr r.discountPct ++ "% discount: $" ++ fmtC2 r.totalRevenue ++
        " (" ++ fmt2 (qmul (qdiv r.totalRevenue total) 100) ++ "% of total revenue)")
    (hdr ++ tbl.map renderDiscountRow ++ ["", "Revenue Distribution by Discount Level:"] ++
      distLines ++ [""], none)

/-- `payment_method_analysis` (lines 178-197): table only. -/
def payment_method_analysis (df : Table) : List String × Option PyError :=
  let hdr := [hr, "PAYMENT METHOD ANALYSIS", hr]
  match columnsMissing df ["payment_method", "final_price"] with
  | some e => (hdr, some e)
  | none => (hdr ++ (payment_stats df.rows).map renderPaymentRow ++ [""], none)

/-- `key_insights` (lines 199-230).  All aggregations run before any fact
prints; `idxmax` on the per-product revenue raises on an empty table.  The
discount-effect means (lines 218-219) are NaN on an empty subset and print
as `nan`.  `customer_id` is only touched by the fact-5 f-string, after facts
1-4 have printed. -/
def key_insights (df : Table) : List String × Option PyError :=
  let hdr := [hr, "KEY INSIGHTS & RECOMMENDATIONS", hr]
  match columnsMissing df ["product", "final_price", "region", "discount_percent", "category"] with
  | some e => (hdr, some e)
  | none =>
    let prodRev := (groupby strLeP (fun r => r.product) df.rows).map
      (fun g => (g.1, qsumL (g.2.map (fun r => r.final_price))))
    let regRev := (groupby strLeP (fun r => r.region) df.rows).map
      (fun g => (g.1, qsumL (g.2.map (fun r => r.final_price))))
    let catRev := (groupby strLeP (fun r => r.category) df.rows).map
      (fun g => (g.1, qsumL (g.2.map (fun r => r.final_price))))
    match idxmax prodRev, listMax (prodRev.map (fun p => p.2)),
        idxmax regRev, idxmax catRev with
    | some tp, some tpv, some tr, some tc =>
      let avgNo := meanQ ((df.rows.filter
        (fun r => decide (r.discount_percent = 0))).map (fun r => r.final_price))
      let avgWith := meanQ ((df.rows.filter
        (fun r => decide (0 < r.discount_percent))).map (fun r => r.final_price))
      let l1 := "1. " ++ tp.1 ++ " is the top revenue generator ($" ++ fmtC2 tpv ++ ")"
      let l2 := "2. " ++ tr.1 ++ " is the strongest market - consider targeted expansion"
      let l3 := "3. " ++ tc.1 ++ " category dominates sales - focus inventory accordingly"
      let l4 := "4. Average transaction without discount: $" ++ fmtOpt2 avgNo
      let l5 := "   Average transaction with discount: $" ++ fmtOpt2 avgWith
      if !(df.columns.contains "customer_id") then
        (hdr ++ [l1, l2, l3, l4, l5], some (.keyError "customer_id"))
      else
        (hdr ++ [l1, l2, l3, l4, l5,
          "5. Total unique customers: " ++
            toString (nunique (df.rows.map (fun r => r.customer_id))) ++
            " - opportunity for retention programs", ""], none)
    | _, _, _, _ => (hdr, some argmaxErr)

/-- The analyses `main` runs, in order (lines 245-252). -/
def sections : List (Table → List String × Option PyError) :=
  [basic_statistics, product_analysis, regional_analysis, temporal_analysis,
   category_analysis, discount_analysis, payment_method_analysis, key_insights]

/-- Run the sections in order, stopping at the first uncaught error; when all
succeed, the completion banner follows. -/
def runSections (df : Table) : List (Table → List String × Option PyError) →
    List String × Option PyError
  | [] => ([hr, "Analysis Complete!", hr], none)
  | s :: rest =>
    match s df with
    | (ls, some e) => (ls, some e)
    | (ls, none) =>
      let r := runSections df rest
      (ls ++ r.1, r.2)

/-- The opening banner of `main` (lines 236-238). -/
def bannerLines : List String := ["", hr, "E-COMMERCE SALES ANALYSIS 2025", hr, ""]

/-- `main` (lines 232-256): load, then run every analysis in sequence.  There
is no exception handler anywhere, so the first error aborts the process with
a non-zero status; the pair returned here is (lines printed, uncaught error). -/
def main (inp : LoadInput) : List String × Option PyError :=
  match load_data inp with
  | .error e => (bannerLines, some e)
  | .ok df =>
    let r := runSections df sections
    (bannerLines ++ ["Dataset loaded successfully: " ++ toString df.rows.length ++ " records", ""]
      ++ r.1, r.2)

/-- Column list of a table loaded from a file with all required columns. -/
def stdColumns : List String := loadedColumns requiredColumns

/-- A loaded table over the standard columns. -/
def mkTable (rs : List Row) : Table := { columns := stdColumns, rows := rs.map deriveRow }

/-- A well-formed single-row load input. -/
def singleInput (r : Row) : LoadInput := { fileExists := true, columns := requiredColumns, rawRows := [r] }

/-- A sample fully-populated row. -/
def baseRow : Row :=
  { date := { year := 2025, month := 3, day := 15 }
    product := "Widget"
    category := "Gadgets"
    region := "North"
    payment_method := "Card"
    customer_id := "C001"
    quantity := 2
    discount_percent := 0
    final_price := 100 }

/-- Two rows in different product groups whose prices are not whole cents:
each group sums to `1/250` of a currency unit. -/
def fracRowA : Row :=
  { date := { year := 2025, month := 1, day := 10 }
    product := "A"
    category := "X"
    region := "North"
    payment_method := "Card"
    customer_id := "C1"
    quantity := 1
    discount_percent := 0
    final_price := mkRat 1 250 }

/-- Second sub-cent row, in a different product group. -/
def fracRowB : Row :=
  { fracRowA with product := "B", customer_id := "C2" }

/-- The two-row sub-cent table used against the conservation claim. -/
def fracTable : Table := mkTable [fracRowA, fracRowB]

/-- A single-row table whose only row has a positive discount, so the
no-discount subset is empty. -/
def discRow : Row :=
  { baseRow with discount_percent := 5, final_price := 50 }

/-- Loaded single-row table with an empty no-discount subset. -/
def discTable : Table := mkTable [discRow]

/-- A load input whose header lacks the `region` column. -/
def inpNoRegion : LoadInput :=
  { fileExists := true
    columns := ["date", "product", "category", "payment_method", "customer_id",
      "quantity", "discount_percent", "final_price"]
    rawRows := [baseRow] }

/-- A load input whose file does not exist. -/
def inpNoFile : LoadInput := { fileExists := false, columns := [], rawRows := [] }

/-- A load input for an empty CSV that has all required header columns. -/
def emptyInput : LoadInput := { fileExists := true, columns := requiredColumns, rawRows := [] }

/-- The table loaded from `emptyInput`. -/
def emptyTable : Table := mkTable []

/-- Whether `load_data` succeeds on an input. -/
def loadSucceeds (inp : LoadInput) : Bool :=
  match load_data inp with
  | .ok _ => true
  | .error _ => false

/-- A value is a whole number of cents. -/
def IsCents (q : ℚ) : Prop := ∃ k : ℤ, q = (k : ℚ) / 100

/-- Conservation of totals: the `Total Revenue` column of every breakdown sums
to the overall `final_price` sum of the table. -/
def RevenueConserved (df : Table) : Prop :=
  ((product_stats df.rows).map (fun r => r.totalRevenue)).sum =
    (df.rows.map (fun r => r.final_price)).sum ∧
  ((region_stats df.rows).map (fun r => r.totalRevenue)).sum =
    (df.rows.map (fun r => r.final_price)).sum ∧
  ((category_stats df.rows).map (fun r => r.totalRevenue)).sum =
    (df.rows.map (fun r => r.final_price)).sum ∧
  ((discount_stats df.rows).map (fun r => r.totalRevenue)).sum =
    (df.rows.map (fun r => r.final_price)).sum ∧
  ((payment_stats df.rows).map (fun r => r.totalRevenue)).sum =
    (df.rows.map (fun r => r.final_price)).sum ∧
  ((monthly_revenue df.rows).map (fun p => p.2)).sum =
    (df.rows.map (fun r => r.final_price)).sum ∧
  ((quarterly_revenue df.rows).map (fun p => p.2)).sum =
    (df.rows.map (fun r => r.final_price)).sum

/-- The per-group transaction-count columns all sum to the record count. -/
def CountsConserved (df : Table) : Prop :=
  ((product_stats df.rows).map (fun r => r.transactions)).sum = df.rows.length ∧
  ((region_stats df.rows).map (fun r => r.transactions)).sum = df.rows.length ∧
  ((category_stats df.rows).map (fun r => r.transactions)).sum = df.rows.length ∧
  ((discount_stats df.rows).map (fun r => r.transactions)).sum = df.rows.length ∧
  ((payment_stats df.rows).map (fun r => r.count)).sum = df.rows.length

/-- The four revenue-sorted breakdowns are in non-increasing `Total Revenue`
order. -/
def TablesSortedDesc (df : Table) : Prop :=
  List.Sorted (fun a b => b.totalRevenue ≤ a.totalRevenue) (product_stats df.rows) ∧
  List.Sorted (fun a b => b.totalRevenue ≤ a.totalRevenue) (region_stats df.rows) ∧
  List.Sorted (fun a b => b.totalRevenue ≤ a.totalRevenue) (category_stats df.rows) ∧
  List.Sorted (fun a b => b.totalRevenue ≤ a.totalRevenue) (payment_stats df.rows)

/-- The discount breakdown is listed by ascending discount tier and the
temporal breakdowns by ascending month and quarter. -/
def KeyOrderPreserved (df : Table) : Prop :=
  List.Sorted (· < ·) ((discount_stats df.rows).map (fun r => r.discountPct)) ∧
  List.Sorted (· < ·) ((monthly_revenue df.rows).map (fun p => p.1)) ∧
  List.Sorted (· < ·) ((quarterly_revenue df.rows).map (fun p => p.1))

/-- The `idxmax` call on this series picks an actual entry attaining the
maximum value. -/
def IsArgmax {κ β : Type} [LinearOrder β] (l : List (κ × β)) : Prop :=
  ∃ m, idxmax l = some m ∧ m ∈ l ∧ ∀ p ∈ l, p.2 ≤ m.2

/-- The `idxmin` call on this series picks an actual entry attaining the
minimum value. -/
def IsArgmin {κ β : Type} [LinearOrder β] (l : List (κ × β)) : Prop :=
  ∃ m, idxmin l = some m ∧ m ∈ l ∧ ∀ p ∈ l, m.2 ≤ p.2

/-- Every highlight line of the report identifies a true extreme of its
breakdown: best-selling and highest-revenue product, top region, best and
worst month, and best quarter.  The quarterly breakdown has no worst-quarter
highlight in the source. -/
def HighlightsOk (df : Table) : Prop :=
  IsArgmax ((product_stats df.rows).map (fun r => (r.product, r.unitsSold))) ∧
  IsArgmax ((product_stats df.rows).map (fun r => (r.product, r.totalRevenue))) ∧
  IsArgmax ((region_stats df.rows).map (fun r => (r.region, r.totalRevenue))) ∧
  IsArgmax (monthly_revenue df.rows) ∧
  IsArgmin (monthly_revenue df.rows) ∧
  IsArgmax (quarterly_revenue df.rows)

/-- Every analysis section succeeds on a one-row table, the whole pipeline
runs to completion, and the best and worst month coincide. -/
def SingleRowOk (r : Row) : Prop :=
  load_data (singleInput r) = .ok (mkTable [r]) ∧
  (basic_statistics (mkTable [r])).2 = none ∧
  (product_analysis (mkTable [r])).2 = none ∧
  (regional_analysis (mkTable [r])).2 = none ∧
  (temporal_analysis (mkTable [r])).2 = none ∧
  (category_analysis (mkTable [r])).2 = none ∧
  (discount_analysis (mkTable [r])).2 = none ∧
  (payment_method_analysis (mkTable [r])).2 = none ∧
  (key_insights (mkTable [r])).2 = none ∧
  (main (singleInput r)).2 = none ∧
  idxmax (monthly_revenue (mkTable [r]).rows) = idxmin (monthly_revenue (mkTable [r]).rows) ∧
  idxmax (monthly_revenue (mkTable [r]).rows) =
    some (r.date.month, round2 (qsumL [r.final_price]))

/-! ### Bridge lemmas: `mkRat`-level arithmetic agrees with the field `ℚ` -/

theorem mkRat_eq_div' (n : ℤ) (d : ℕ) : mkRat n d = (n : ℚ) / (d : ℚ) := by
  rw [Rat.mkRat_eq_divInt, Rat.divInt_eq_div]
  norm_cast

theorem num_as_mul_den (a : ℚ) : (a.num : ℚ) = a * (a.den : ℚ) := by
  have h : ((a.den : ℚ)) ≠ 0 := by
    exact_mod_cast a.den_ne_zero
  rw [eq_comm, ← eq_div_iff h]
  exact (Rat.num_div_den a).symm

theorem qadd_eq_add (a b : ℚ) : qadd a b = a + b := by
  have hb : ((a.den : ℚ)) ≠ 0 := by
    exact_mod_cast a.den_ne_zero
  have hd : ((b.den : ℚ)) ≠ 0 := by
    exact_mod_cast b.den_ne_zero
  rw [qadd, mkRat_eq_div']
  push_cast
  rw [div_eq_iff (mul_ne_zero hb hd), num_as_mul_den a, num_as_mul_den b]
  ring

theorem qmul_eq_mul (a b : ℚ) : qmul a b = a * b := by
  have hb : ((a.den : ℚ)) ≠ 0 := by
    exact_mod_cast a.den_ne_zero
  have hd : ((b.den : ℚ)) ≠ 0 := by
    exact_mod_cast b.den_ne_zero
  rw [qmul, mkRat_eq_div']
  push_cast
  rw [div_eq_iff (mul_ne_zero hb hd), num_as_mul_den a, num_as_mul_den b]
  ring

theorem qdiv_eq_div (a b : ℚ) : qdiv a b = a / b := by
  rcases eq_or_ne b 0 with rfl | hb
  · rw [div_zero, qdiv]
    simp only [show ((0 : ℚ).num) = 0 from rfl, show ((0 : ℚ).num.natAbs) = 0 from rfl]
    norm_num [Rat.mkRat_eq_divInt]
  · have hden : ((a.den : ℚ)) ≠ 0 := by
      exact_mod_cast a.den_ne_zero
    have hbden : ((b.den : ℚ)) ≠ 0 := by
      exact_mod_cast b.den_ne_zero
    have hbnum : (b.num : ℚ) ≠ 0 := by
      exact_mod_cast Rat.num_ne_zero.mpr hb
    have key : a / b = ((a.num : ℚ) * (b.den : ℚ)) / ((a.den : ℚ) * (b.num : ℚ)) := by
      rw [div_eq_div_iff (by exact hb) (mul_ne_zero hden hbnum), num_as_mul_den a,
        num_as_mul_den b]
      ring
    rw [qdiv]
    split <;> rename_i hlt
    · have habs : (((b.num.natAbs : ℕ)) : ℚ) = -(b.num : ℚ) := by
        have h1 : ((b.num.natAbs : ℤ)) = -b.num := by omega
        calc (((b.num.natAbs : ℕ)) : ℚ) = (((b.num.natAbs : ℤ)) : ℚ) :=
            (Int.cast_natCast b.num.natAbs).symm
          _ = -(b.num : ℚ) := by rw [h1]; push_cast; ring
      rw [mkRat_eq_div', key]
      push_cast
      rw [habs, mul_neg, neg_div_neg_eq]
    · have habs : (((b.num.natAbs : ℕ)) : ℚ) = (b.num : ℚ) := by
        have h1 : ((b.num.natAbs : ℤ)) = b.num := by omega
        calc (((b.num.natAbs : ℕ)) : ℚ) = (((b.num.natAbs : ℤ)) : ℚ) :=
            (Int.cast_natCast b.num.natAbs).symm
          _ = (b.num : ℚ) := by rw [h1]
      rw [mkRat_eq_div', key]
      push_cast
      rw [habs]

theorem qsumL_eq_sum (l : List ℚ) : qsumL l = l.sum := by
  induction l with
  | nil => rfl
  | cons a t ih =>
    rw [List.sum_cons, ← ih]
    exact qadd_eq_add a (qsumL t)

theorem qfloor_eq_floor (q : ℚ) : qfloor q = ⌊q⌋ := by
  rw [Rat.floor_def, qfloor]
  split <;> rename_i h
  · rw [h]
    simp
  · rfl

theorem rhe_intCast (k : ℤ) : rhe ((k : ℤ) : ℚ) = k := by
  have hnum : ((k : ℚ)).num = k := Rat.num_intCast k
  have hden : ((k : ℚ)).den = 1 := Rat.den_intCast k
  rw [rhe, qfloor]
  simp [hnum, hden]

/-! ### Whole-cent values are fixed points of `round2` -/

theorem IsCents.sum {l : List ℚ} (h : ∀ q ∈ l, IsCents q) : IsCents l.sum := by
  induction l with
  | nil => exact ⟨0, by norm_num⟩
  | cons a t ih =>
    obtain ⟨k, hk⟩ := h a (List.mem_cons_self a t)
    obtain ⟨m, hm⟩ := ih (fun q hq => h q (List.mem_cons_of_mem a hq))
    exact ⟨k + m, by rw [List.sum_cons, hk, hm]; push_cast; ring⟩

theorem round2_cents {q : ℚ} (h : IsCents q) : round2 q = q := by
  obtain ⟨k, hk⟩ := h
  have h100 : qmul q 100 = ((k : ℤ) : ℚ) := by
    rw [qmul_eq_mul, hk]
    field_simp
  rw [round2, h100, rhe_intCast, qdiv_eq_div, hk]

/-! ### Splitting a sum along a filter, and distinct-key covers -/

theorem sum_map_filter_split {α M : Type} [AddCommMonoid M] (f : α → M) (p : α → Bool)
    (l : List α) :
    ((l.filter p).map f).sum + ((l.filter (fun a => !(p a))).map f).sum = (l.map f).sum := by
  induction l with
  | nil => simp
  | cons a t ih =>
    by_cases h : p a = true
    · rw [List.filter_cons_of_pos h, List.filter_cons_of_neg (by simp [h])]
      simp only [List.map_cons, List.sum_cons]
      rw [add_assoc, ih]
    · rw [List.filter_cons_of_neg (by simp [h]), List.filter_cons_of_pos (by simp [h])]
      simp only [List.map_cons, List.sum_cons]
      rw [add_left_comm, ih]

theorem mem_foldl_uniq {κ : Type} [DecidableEq κ] :
    ∀ (l acc : List κ) (a : κ),
      (a ∈ l.foldl (fun acc x => if x ∈ acc then acc else acc ++ [x]) acc ↔ a ∈ acc ∨ a ∈ l) := by
  intro l
  induction l with
  | nil => simp
  | cons x t ih =>
    intro acc a
    simp only [List.foldl_cons]
    by_cases hx : x ∈ acc
    · rw [if_pos hx, ih]
      constructor
      · rintro (h | h)
        · exact Or.inl h
        · exact Or.inr (List.mem_cons_of_mem _ h)
      · rintro (h | h)
        · exact Or.inl h
        · rcases List.mem_cons.mp h with rfl | h2
          · exact Or.inl hx
          · exact Or.inr h2
    · rw [if_neg hx, ih]
      simp only [List.mem_append, List.mem_singleton, List.mem_cons]
      tauto

theorem nodup_foldl_uniq {κ : Type} [DecidableEq κ] :
    ∀ (l acc : List κ), acc.Nodup →
      (l.foldl (fun acc x => if x ∈ acc then acc else acc ++ [x]) acc).Nodup := by
  intro l
  induction l with
  | nil => intro acc h; simpa using h
  | cons x t ih =>
    intro acc h
    simp only [List.foldl_cons]
    by_cases hx : x ∈ acc
    · rw [if_pos hx]
      exact ih acc h
    · rw [if_neg hx]
      refine ih (acc ++ [x]) (h.append (List.nodup_singleton x) ?_)
      intro a ha hb
      rw [List.mem_singleton] at hb
      exact hx (hb ▸ ha)

theorem mem_uniqueKeys {κ : Type} [DecidableEq κ] {l : List κ} {a : κ} :
    a ∈ uniqueKeys l ↔ a ∈ l := by
  rw [uniqueKeys, mem_foldl_uniq]
  simp

theorem uniqueKeys_nodup {κ : Type} [DecidableEq κ] (l : List κ) : (uniqueKeys l).Nodup :=
  nodup_foldl_uniq l [] List.nodup_nil

theorem uniqueKeys_ne_nil {κ : Type} [DecidableEq κ] {l : List κ} (h : l ≠ []) :
    uniqueKeys l ≠ [] := by
  cases l with
  | nil => exact absurd rfl h
  | cons x t =>
    exact List.ne_nil_of_mem (mem_uniqueKeys.mpr (List.mem_cons_self x t))

theorem sum_over_keys {α M κ : Type} [AddCommMonoid M] [DecidableEq κ]
    (key : α → κ) (f : α → M) :
    ∀ (ks : List κ), ks.Nodup → ∀ (l : List α), (∀ x ∈ l, key x ∈ ks) →
      (ks.map (fun k => ((l.filter (fun x => decide (key x = k))).map f).sum)).sum =
        (l.map f).sum := by
  intro ks
  induction ks with
  | nil =>
    intro _ l hcov
    cases l with
    | nil => simp
    | cons x t => exact absurd (hcov x (List.mem_cons_self x t)) (List.not_mem_nil _)
  | cons k ks ih =>
    intro hnd l hcov
    have hk_not : k ∉ ks := (List.nodup_cons.mp hnd).1
    have hnd' : ks.Nodup := (List.nodup_cons.mp hnd).2
    have htail : ∀ k' ∈ ks,
        ((l.filter (fun x => decide (key x = k'))).map f).sum =
          (((l.filter (fun x => !(decide (key x = k)))).filter
            (fun x => decide (key x = k'))).map f).sum := by
      intro k' hk'
      have hfil : l.filter (fun x => decide (key x = k')) =
          (l.filter (fun x => !(decide (key x = k)))).filter
            (fun x => decide (key x = k')) := by
        rw [List.filter_filter]
        apply List.filter_congr
        intro x _
        by_cases hxk : key x = k'
        · have hkk : k' ≠ k := by
            intro hh
            exact hk_not (hh ▸ hk')
          simp [hxk, hkk]
        · simp [hxk]
      rw [hfil]
    have hcov2 : ∀ x ∈ l.filter (fun x => !(decide (key x = k))), key x ∈ ks := by
      intro x hx
      rcases List.mem_filter.mp hx with ⟨hxl, hxp⟩
      have hne : key x ≠ k := by
        simpa using hxp
      rcases List.mem_cons.mp (hcov x hxl) with h | h
      · exact absurd h hne
      · exact h
    calc ((k :: ks).map (fun k' =>
            ((l.filter (fun x => decide (key x = k'))).map f).sum)).sum
        = ((l.filter (fun x => decide (key x = k))).map f).sum +
            (ks.map (fun k' => ((l.filter (fun x => decide (key x = k'))).map f).sum)).sum := by
          simp
      _ = ((l.filter (fun x => decide (key x = k))).map f).sum +
            (ks.map (fun k' =>
              (((l.filter (fun x => !(decide (key x = k)))).filter
                (fun x => decide (key x = k'))).map f).sum)).sum := by
          rw [List.map_congr_left htail]
      _ = ((l.filter (fun x => decide (key x = k))).map f).sum +
            ((l.filter (fun x => !(decide (key x = k)))).map f).sum := by
          rw [ih hnd' _ hcov2]
      _ = (l.map f).sum := sum_map_filter_split f _ l

/-! ### Facts about `groupby`, `sortDescBy`, `idxmax`, `idxmin` -/

theorem groupby_sum {κ M : Type} [DecidableEq κ] [AddCommMonoid M] (le : κ → κ → Prop)
    [DecidableRel le] (key : LRow → κ) (f : LRow → M) (rows : List LRow) :
    ((groupby le key rows).map (fun g => (g.2.map f).sum)).sum = (rows.map f).sum := by
  rw [groupby, List.map_map]
  have hperm := List.perm_insertionSort le (uniqueKeys (rows.map key))
  have hnd : (List.insertionSort le (uniqueKeys (rows.map key))).Nodup :=
    hperm.nodup_iff.mpr (uniqueKeys_nodup _)
  have hcov : ∀ x ∈ rows, key x ∈ List.insertionSort le (uniqueKeys (rows.map key)) := by
    intro x hx
    rw [List.mem_insertionSort, mem_uniqueKeys]
    exact List.mem_map_of_mem key hx
  exact sum_over_keys key f _ hnd rows hcov

theorem sum_map_one {α : Type} (l : List α) : (l.map (fun _ => (1 : ℕ))).sum = l.length := by
  induction l with
  | nil => rfl
  | cons a t ih => simp [ih, Nat.add_comm]

theorem groupby_count {κ : Type} [DecidableEq κ] (le : κ → κ → Prop) [DecidableRel le]
    (key : LRow → κ) (rows : List LRow) :
    ((groupby le key rows).map (fun g => g.2.length)).sum = rows.length := by
  calc ((groupby le key rows).map (fun g => g.2.length)).sum
      = ((groupby le key rows).map (fun g => (g.2.map (fun _ => (1 : ℕ))).sum)).sum := by
        apply congrArg
        apply List.map_congr_left
        intro g _
        rw [sum_map_one]
    _ = (rows.map (fun _ => (1 : ℕ))).sum := groupby_sum le key _ rows
    _ = rows.length := sum_map_one rows

theorem groupby_ne_nil {κ : Type} [DecidableEq κ] (le : κ → κ → Prop) [DecidableRel le]
    (key : LRow → κ) {rows : List LRow} (h : rows ≠ []) : groupby le key rows ≠ [] := by
  rw [groupby]
  intro hc
  have hsort := List.map_eq_nil_iff.mp hc
  have hlen := List.length_insertionSort le (uniqueKeys (rows.map key))
  rw [hsort] at hlen
  have hu : uniqueKeys (rows.map key) = [] := List.length_eq_zero.mp hlen.symm
  have hm : rows.map key ≠ [] := by
    intro hnil
    exact h (List.map_eq_nil_iff.mp hnil)
  exact uniqueKeys_ne_nil hm hu

theorem groupby_mem_sub {κ : Type} [DecidableEq κ] (le : κ → κ → Prop) [DecidableRel le]
    (key : LRow → κ) {rows : List LRow} {g : κ × List LRow} (hg : g ∈ groupby le key rows) :
    ∀ r ∈ g.2, r ∈ rows := by
  rw [groupby] at hg
  rcases List.mem_map.mp hg with ⟨k, _, rfl⟩
  intro r hr
  exact List.mem_of_mem_filter hr

theorem sortDescBy_perm {α : Type} (f : α → ℚ) (l : List α) : List.Perm (sortDescBy f l) l :=
  List.perm_insertionSort _ l

theorem sortDescBy_sorted {α : Type} (f : α → ℚ) (l : List α) :
    List.Sorted (fun a b => f b ≤ f a) (sortDescBy f l) := by
  haveI : IsTotal α (fun a b => f b ≤ f a) := ⟨fun a b => le_total (f b) (f a)⟩
  haveI : IsTrans α (fun a b => f b ≤ f a) := ⟨fun _ _ _ h1 h2 => le_trans h2 h1⟩
  exact List.sorted_insertionSort _ l

theorem sortDescBy_ne_nil {α : Type} (f : α → ℚ) {l : List α} (h : l ≠ []) :
    sortDescBy f l ≠ [] := by
  intro hc
  have hp := sortDescBy_perm f l
  rw [hc] at hp
  exact h hp.symm.eq_nil

theorem groupby_keys {κ : Type} [DecidableEq κ] (le : κ → κ → Prop) [DecidableRel le]
    (key : LRow → κ) (rows : List LRow) :
    (groupby le key rows).map (fun g => g.1) =
      List.insertionSort le (uniqueKeys (rows.map key)) := by
  rw [groupby, List.map_map]
  exact List.map_id _

theorem groupby_keys_sorted_lt {κ : Type} [LinearOrder κ] (key : LRow → κ) (rows : List LRow) :
    List.Sorted (· < ·) ((groupby (· ≤ ·) key rows).map (fun g => g.1)) := by
  rw [groupby_keys]
  have hs : List.Sorted (· ≤ ·)
      (List.insertionSort (· ≤ ·) (uniqueKeys (rows.map key))) :=
    List.sorted_insertionSort _ _
  have hnd : (List.insertionSort (· ≤ ·) (uniqueKeys (rows.map key))).Nodup :=
    (List.perm_insertionSort _ _).nodup_iff.mpr (uniqueKeys_nodup _)
  exact hs.lt_of_le hnd

theorem foldl_pickmax_mem {κ β : Type} [LinearOrder β] :
    ∀ (xs : List (κ × β)) (x : κ × β),
      xs.foldl (fun best p => if best.2 < p.2 then p else best) x ∈ x :: xs := by
  intro xs
  induction xs with
  | nil => intro x; simp
  | cons y ys ih =>
    intro x
    simp only [List.foldl_cons]
    have h := ih (if x.2 < y.2 then y else x)
    rcases List.mem_cons.mp h with he | hm
    · rw [he]
      by_cases hxy : x.2 < y.2
      · rw [if_pos hxy]
        simp
      · rw [if_neg hxy]
        simp
    · simp [List.mem_cons, hm]

theorem foldl_pickmax_ge {κ β : Type} [LinearOrder β] :
    ∀ (xs : List (κ × β)) (x p : κ × β), p ∈ x :: xs →
      p.2 ≤ (xs.foldl (fun best q => if best.2 < q.2 then q else best) x).2 := by
  intro xs
  induction xs with
  | nil =>
    intro x p hp
    rcases List.mem_cons.mp hp with rfl | h
    · simp
    · exact absurd h (List.not_mem_nil p)
  | cons y ys ih =>
    intro x p hp
    simp only [List.foldl_cons]
    have hs_ge_x : x.2 ≤ (if x.2 < y.2 then y else x).2 := by
      by_cases h : x.2 < y.2
      · rw [if_pos h]; exact le_of_lt h
      · rw [if_neg h]
    have hs_ge_y : y.2 ≤ (if x.2 < y.2 then y else x).2 := by
      by_cases h : x.2 < y.2
      · rw [if_pos h]
      · rw [if_neg h]; exact le_of_not_lt h
    have hself := ih (if x.2 < y.2 then y else x) (if x.2 < y.2 then y else x)
      (List.mem_cons_self _ ys)
    rcases List.mem_cons.mp hp with rfl | hp2
    · exact le_trans hs_ge_x hself
    · rcases List.mem_cons.mp hp2 with rfl | hp3
      · exact le_trans hs_ge_y hself
      · exact ih _ p (List.mem_cons_of_mem _ hp3)

theorem foldl_pickmin_mem {κ β : Type} [LinearOrder β] :
    ∀ (xs : List (κ × β)) (x : κ × β),
      xs.foldl (fun best p => if p.2 < best.2 then p else best) x ∈ x :: xs := by
  intro xs
  induction xs with
  | nil => intro x; simp
  | cons y ys ih =>
    intro x
    simp only [List.foldl_cons]
    have h := ih (if y.2 < x.2 then y else x)
    rcases List.mem_cons.mp h with he | hm
    · rw [he]
      by_cases hxy : y.2 < x.2
      · rw [if_pos hxy]
        simp
      · rw [if_neg hxy]
        simp
    · simp [List.mem_cons, hm]

theorem foldl_pickmin_le {κ β : Type} [LinearOrder β] :
    ∀ (xs : List (κ × β)) (x p : κ × β), p ∈ x :: xs →
      (xs.foldl (fun best q => if q.2 < best.2 then q else best) x).2 ≤ p.2 := by
  intro xs
  induction xs with
  | nil =>
    intro x p hp
    rcases List.mem_cons.mp hp with rfl | h
    · simp
    · exact absurd h (List.not_mem_nil p)
  | cons y ys ih =>
    intro x p hp
    simp only [List.foldl_cons]
    have hs_le_x : (if y.2 < x.2 then y else x).2 ≤ x.2 := by
      by_cases h : y.2 < x.2
      · rw [if_pos h]; exact le_of_lt h
      · rw [if_neg h]
    have hs_le_y : (if y.2 < x.2 then y else x).2 ≤ y.2 := by
      by_cases h : y.2 < x.2
      · rw [if_pos h]
      · rw [if_neg h]; exact le_of_not_lt h
    have hself := ih (if y.2 < x.2 then y else x) (if y.2 < x.2 then y else x)
      (List.mem_cons_self _ ys)
    rcases List.mem_cons.mp hp with rfl | hp2
    · exact le_trans hself hs_le_x
    · rcases List.mem_cons.mp hp2 with rfl | hp3
      · exact le_trans hself hs_le_y
      · exact ih _ p (List.mem_cons_of_mem _ hp3)

theorem idxmax_spec {κ β : Type} [LinearOrder β] (l : List (κ × β)) (hl : l ≠ []) :
    ∃ m, idxmax l = some m ∧ m ∈ l ∧ ∀ p ∈ l, p.2 ≤ m.2 := by
  cases l with
  | nil => exact absurd rfl hl
  | cons x xs =>
    exact ⟨_, rfl, foldl_pickmax_mem xs x, fun p hp => foldl_pickmax_ge xs x p hp⟩

theorem idxmin_spec {κ β : Type} [LinearOrder β] (l : List (κ × β)) (hl : l ≠ []) :
    ∃ m, idxmin l = some m ∧ m ∈ l ∧ ∀ p ∈ l, m.2 ≤ p.2 := by
  cases l with
  | nil => exact absurd rfl hl
  | cons x xs =>
    exact ⟨_, rfl, foldl_pickmin_mem xs x, fun p hp => foldl_pickmin_le xs x p hp⟩

theorem listMax_isSome {β : Type} [LinearOrder β] {l : List β} (hl : l ≠ []) :
    ∃ v, listMax l = some v := by
  cases l with
  | nil => exact absurd rfl hl
  | cons x xs => exact ⟨_, rfl⟩

theorem listMin_isSome {β : Type} [LinearOrder β] {l : List β} (hl : l ≠ []) :
    ∃ v, listMin l = some v := by
  cases l with
  | nil => exact absurd rfl hl
  | cons x xs => exact ⟨_, rfl⟩

/-! ### Nonemptiness of the derived tables -/

theorem product_stats_ne_nil {rows : List LRow} (h : rows ≠ []) : product_stats rows ≠ [] := by
  rw [product_stats]
  apply sortDescBy_ne_nil
  intro hc
  exact groupby_ne_nil strLeP (fun r => r.product) h (List.map_eq_nil_iff.mp hc)

theorem region_stats_ne_nil {rows : List LRow} (h : rows ≠ []) : region_stats rows ≠ [] := by
  rw [region_stats]
  apply sortDescBy_ne_nil
  intro hc
  exact groupby_ne_nil strLeP (fun r => r.region) h (List.map_eq_nil_iff.mp hc)

theorem monthly_revenue_ne_nil {rows : List LRow} (h : rows ≠ []) : monthly_revenue rows ≠ [] := by
  rw [monthly_revenue]
  intro hc
  exact groupby_ne_nil (· ≤ ·) (fun r => r.month) h (List.map_eq_nil_iff.mp hc)

theorem quarterly_revenue_ne_nil {rows : List LRow} (h : rows ≠ []) :
    quarterly_revenue rows ≠ [] := by
  rw [quarterly_revenue]
  intro hc
  exact groupby_ne_nil (· ≤ ·) (fun r => r.quarter) h (List.map_eq_nil_iff.mp hc)

theorem map_ne_nil_of_ne_nil {α β : Type} (f : α → β) {l : List α} (h : l ≠ []) :
    l.map f ≠ [] := by
  intro hc
  exact h (List.map_eq_nil_iff.mp hc)

/-! ### Claim theorems -/

/-- C4: for every input table, the product, region, category and
payment-method breakdown tables list their rows in non-increasing order of
the `Total Revenue` column. -/
theorem claim_tables_sorted_desc (df : Table) : TablesSortedDesc df :=
  ⟨sortDescBy_sorted _ _, sortDescBy_sorted _ _, sortDescBy_sorted _ _, sortDescBy_sorted _ _⟩

/-- C5: for every input table, the discount breakdown lists its tiers in
strictly ascending `discount_percent` order, and the monthly and quarterly
breakdowns list their periods in strictly ascending month and quarter order:
`groupby` key order is preserved, no revenue sort is applied. -/
theorem claim_key_order_preserved (df : Table) : KeyOrderPreserved df := by
  refine ⟨?_, ?_, ?_⟩
  · have h := groupby_keys_sorted_lt (fun r => r.discount_percent) df.rows
    rw [discount_stats, List.map_map]
    exact h
  · have h := groupby_keys_sorted_lt (fun r => r.month) df.rows
    rw [monthly_revenue, List.map_map]
    exact h
  · have h := groupby_keys_sorted_lt (fun r => r.quarter) df.rows
    rw [quarterly_revenue, List.map_map]
    exact h

theorem sum_map_sortDescBy {α M : Type} [AddCommMonoid M] (f : α → ℚ) (g : α → M)
    (l : List α) : ((sortDescBy f l).map g).sum = (l.map g).sum :=
  ((sortDescBy_perm f l).map g).sum_eq

/-- C7: for every input table, the per-group count column of each breakdown
that has one (`Transactions` for product/region/category/discount, `Count`
for payment method) sums to the total number of records. -/
theorem claim_counts_conserved (df : Table) : CountsConserved df := by
  refine ⟨?_, ?_, ?_, ?_, ?_⟩
  · rw [product_stats, sum_map_sortDescBy, List.map_map]
    exact groupby_count strLeP (fun r => r.product) df.rows
  · rw [region_stats, sum_map_sortDescBy, List.map_map]
    exact groupby_count strLeP (fun r => r.region) df.rows
  · rw [category_stats, sum_map_sortDescBy, List.map_map]
    exact groupby_count strLeP (fun r => r.category) df.rows
  · rw [discount_stats, List.map_map]
    exact groupby_count (· ≤ ·) (fun r => r.discount_percent) df.rows
  · rw [payment_stats, sum_map_sortDescBy, List.map_map]
    exact groupby_count strLeP (fun r => r.payment_method) df.rows

/-- C8: the pipeline is a pure function of its load input: two runs on the
same input produce identical printed output and exit status.  (The script
reads no clock, environment or randomness; the unused `datetime` import has
no effect.) -/
theorem claim_deterministic (inp1 inp2 : LoadInput) (h : inp1 = inp2) :
    main inp1 = main inp2 := by
  rw [h]

/-- Witness for C8 at a concrete input. -/
theorem claim_deterministic_witness :
    singleInput baseRow = singleInput baseRow ∧
      main (singleInput baseRow) = main (singleInput baseRow) :=
  ⟨rfl, claim_deterministic (singleInput baseRow) (singleInput baseRow) rfl⟩

theorem groupby_rounded_revenue {κ : Type} [DecidableEq κ] (le : κ → κ → Prop)
    [DecidableRel le] (key : LRow → κ) {rows : List LRow}
    (h : ∀ r ∈ rows, IsCents r.final_price) :
    ((groupby le key rows).map
        (fun g => round2 (qsumL (g.2.map (fun r => r.final_price))))).sum =
      (rows.map (fun r => r.final_price)).sum := by
  have hcong : ∀ g ∈ groupby le key rows,
      round2 (qsumL (g.2.map (fun r => r.final_price))) =
        (g.2.map (fun r => r.final_price)).sum := by
    intro g hg
    rw [qsumL_eq_sum]
    refine round2_cents (IsCents.sum ?_)
    intro q hq
    rcases List.mem_map.mp hq with ⟨r, hr, rfl⟩
    exact h r (groupby_mem_sub le key hg r hr)
  rw [List.map_congr_left hcong]
  exact groupby_sum le key _ rows

/-- C1 counterexample: on a non-empty table whose prices are not whole cents
(two products at `1/250` of a currency unit each), the rounded per-group
`Total Revenue` column of the product breakdown sums to `0`, while the
overall `final_price` sum is `1/125`: the claimed conservation fails as
stated, because the aggregation rounds each group sum to two decimals. -/
theorem claim_revenue_conservation_counterexample :
    fracTable.rows ≠ [] ∧
      ¬ (((product_stats fracTable.rows).map (fun r => r.totalRevenue)).sum =
        (fracTable.rows.map (fun r => r.final_price)).sum) := by
  constructor
  · decide
  · rw [← qsumL_eq_sum, ← qsumL_eq_sum]
    decide

/-- C1 (amended): for every non-empty input table all of whose `final_price`
values are whole numbers of cents, the per-group `Total Revenue` values of
each of the seven breakdowns sum to the overall `final_price` sum.  (The
two-decimal rounding of the aggregation is then the identity on every group
sum.) -/
theorem claim_revenue_conserved_cents (df : Table) (hne : df.rows ≠ [])
    (hc : ∀ r ∈ df.rows, IsCents r.final_price) : RevenueConserved df := by
  refine ⟨?_, ?_, ?_, ?_, ?_, ?_, ?_⟩
  · rw [product_stats, sum_map_sortDescBy, List.map_map]
    exact groupby_rounded_revenue strLeP (fun r => r.product) hc
  · rw [region_stats, sum_map_sortDescBy, List.map_map]
    exact groupby_rounded_revenue strLeP (fun r => r.region) hc
  · rw [category_stats, sum_map_sortDescBy, List.map_map]
    exact groupby_rounded_revenue strLeP (fun r => r.category) hc
  · rw [discount_stats, List.map_map]
    exact groupby_rounded_revenue (· ≤ ·) (fun r => r.discount_percent) hc
  · rw [payment_stats, sum_map_sortDescBy, List.map_map]
    exact groupby_rounded_revenue strLeP (fun r => r.payment_method) hc
  · rw [monthly_revenue, List.map_map]
    exact groupby_rounded_revenue (· ≤ ·) (fun r => r.month) hc
  · rw [quarterly_revenue, List.map_map]
    exact groupby_rounded_revenue (· ≤ ·) (fun r => r.quarter) hc

/-- Witness for the amended C1 at a concrete whole-cent table. -/
theorem claim_revenue_conserved_cents_witness :
    discTable.rows ≠ [] ∧ (∀ r ∈ discTable.rows, IsCents r.final_price) ∧
      RevenueConserved discTable := by
  have hc : ∀ r ∈ discTable.rows, IsCents r.final_price := by
    intro r hr
    have hone : r = deriveRow discRow := by
      simpa [discTable, mkTable] using hr
    rw [hone]
    exact ⟨5000, by norm_num [deriveRow, discRow, baseRow]⟩
  exact ⟨by decide, hc, claim_revenue_conserved_cents discTable (by decide) hc⟩

/-- C6 counterexample: on a concrete one-row table the temporal section
prints a worst-month and a best-quarter highlight but no worst-quarter line,
so the quarterly breakdown does not report a worst period as the claim
states. -/
theorem claim_no_worst_quarter_counterexample :
    discTable.rows ≠ [] ∧
      (temporal_analysis discTable).1.any (fun l => strStartsWith l "Worst Month") = true ∧
      (temporal_analysis discTable).1.any (fun l => strStartsWith l "Best Quarter") = true ∧
      (temporal_analysis discTable).1.any (fun l => strStartsWith l "Worst Quarter") = false := by
  decide

/-- C6 (amended): for every non-empty input table, each highlight identifies
a group attaining the stated extreme: best-selling product by units, highest
revenue product, top region, best and worst month, and best quarter.  Only
the monthly breakdown reports a worst period; the quarterly breakdown
reports its best quarter only. -/
theorem claim_highlights_ok (df : Table) (h : df.rows ≠ []) : HighlightsOk df := by
  refine ⟨?_, ?_, ?_, ?_, ?_, ?_⟩
  · exact idxmax_spec _ (map_ne_nil_of_ne_nil _ (product_stats_ne_nil h))
  · exact idxmax_spec _ (map_ne_nil_of_ne_nil _ (product_stats_ne_nil h))
  · exact idxmax_spec _ (map_ne_nil_of_ne_nil _ (region_stats_ne_nil h))
  · exact idxmax_spec _ (monthly_revenue_ne_nil h)
  · exact idxmin_spec _ (monthly_revenue_ne_nil h)
  · exact idxmax_spec _ (quarterly_revenue_ne_nil h)

/-- Witness for the amended C6 at a concrete one-row table. -/
theorem claim_highlights_ok_witness :
    discTable.rows ≠ [] ∧ HighlightsOk discTable :=
  ⟨by decide, claim_highlights_ok discTable (by decide)⟩

theorem groupby_singleton {κ : Type} [DecidableEq κ] (le : κ → κ → Prop) [DecidableRel le]
    (key : LRow → κ) (x : LRow) : groupby le key [x] = [(key x, [x])] := by
  have hf : [x].filter (fun y => decide (key y = key x)) = [x] := by
    simp
  simp [groupby, uniqueKeys, List.insertionSort, List.orderedInsert, hf]

/-- C9: a table with exactly one row produces a well-defined, non-failing
result in every analysis section, the full pipeline completes, and the
best-month and worst-month highlights name the same (unique) month. -/
theorem claim_single_row_ok (r : Row) : SingleRowOk r := by
  have hg : groupby (· ≤ ·) (fun x : LRow => x.month) [deriveRow r] =
      [((deriveRow r).month, [deriveRow r])] := groupby_singleton _ _ _
  refine ⟨rfl, rfl, rfl, rfl, rfl, rfl, rfl, rfl, rfl, rfl, rfl, ?_⟩
  show idxmax (monthly_revenue [deriveRow r]) = _
  rw [monthly_revenue, hg]
  rfl

/-- C10: on a zero-row table the load succeeds, but `basic_statistics` fails
at the date-range line (`NaT.date()` raises `ValueError`), `product_analysis`
and `key_insights` fail at `idxmax` on an empty series, the pipeline aborts
with the first of these errors, and no completion banner is printed. -/
theorem claim_empty_table_fails :
    load_data emptyInput = .ok emptyTable ∧
      (basic_statistics emptyTable).2 = some natErr ∧
      (product_analysis emptyTable).2 = some argmaxErr ∧
      (key_insights emptyTable).2 = some argmaxErr ∧
      (main emptyInput).2 = some natErr ∧
      ¬ ("Analysis Complete!" ∈ (main emptyInput).1) := by
  refine ⟨rfl, ?_⟩
  decide

/-- C2 counterexample: the loader does not validate the header.  On an input
file whose header lacks the required `region` column, `load_data` succeeds
(no error of any kind is raised at load time, and no `DataLoadError` type
exists in the source at all); the process later dies with a `KeyError` inside
`regional_analysis`, after the basic-statistics and product sections of the
report have already been printed. -/
theorem claim_load_error_counterexample :
    inpNoRegion.columns.contains "region" = false ∧
      loadSucceeds inpNoRegion = true ∧
      (main inpNoRegion).2 = some (.keyError "region") ∧
      "BASIC STATISTICS" ∈ (main inpNoRegion).1 ∧
      "PRODUCT PERFORMANCE ANALYSIS" ∈ (main inpNoRegion).1 := by
  decide

/-- C2 (amended): if the input path does not exist, `load_data` fails with
the propagating `FileNotFoundError` of `pd.read_csv`, and if the `date`
column is missing it fails with a `KeyError`; in both cases `main` has no
handler, prints only the opening banner (no report section), and the process
exits non-zero.  Missing required columns other than `date` do not fail the
load (see the counterexample). -/
theorem claim_load_failure_behavior (inp : LoadInput) :
    (inp.fileExists = false →
      load_data inp = .error .fileNotFound ∧
        main inp = (bannerLines, some .fileNotFound)) ∧
    (inp.fileExists = true → inp.columns.contains "date" = false →
      load_data inp = .error (.keyError "date") ∧
        main inp = (bannerLines, some (.keyError "date"))) := by
  constructor
  · intro h
    have hl : load_data inp = .error .fileNotFound := by
      simp [load_data, h]
    exact ⟨hl, by simp only [main, hl]⟩
  · intro h1 h2
    have h2' : "date" ∉ inp.columns := by
      simpa using h2
    have hl : load_data inp = .error (.keyError "date") := by
      simp [load_data, h1, h2']
    exact ⟨hl, by simp only [main, hl]⟩

/-- Witness for the amended C2 at a concrete missing-file input. -/
theorem claim_load_failure_behavior_witness :
    inpNoFile.fileExists = false ∧
      load_data inpNoFile = .error .fileNotFound ∧
      main inpNoFile = (bannerLines, some .fileNotFound) :=
  ⟨rfl, ((claim_load_failure_behavior inpNoFile).1 rfl).1,
    ((claim_load_failure_behavior inpNoFile).1 rfl).2⟩

/-- C3 counterexample: on a concrete one-row table whose single row carries a
positive discount, the no-discount subset is empty; `key_insights` does not
crash, but the affected mean is printed as `$nan` — no line of the section
contains `N/A`. -/
theorem claim_insights_na_counterexample :
    discTable.rows.filter (fun r => decide (r.discount_percent = 0)) = [] ∧
      (key_insights discTable).2 = none ∧
      (∀ l ∈ (key_insights discTable).1, strContainsB l "N/A" = false) ∧
      "4. Average transaction without discount: $nan" ∈ (key_insights discTable).1 := by
  decide

/-- C3 (amended): for every non-empty input table with the columns the
insight section uses, `key_insights` completes without error, and whenever
the no-discount (resp. discounted) subset is empty the corresponding mean
line is rendered with `nan` (the NaN of an empty float mean), not `N/A`.  On
an empty table `key_insights` fails at `idxmax` instead (see C10). -/
theorem claim_insights_empty_subset (df : Table) (h1 : df.rows ≠ [])
    (h2 : columnsMissing df
      ["product", "final_price", "region", "discount_percent", "category"] = none)
    (h3 : df.columns.contains "customer_id" = true) :
    (key_insights df).2 = none ∧
    (df.rows.filter (fun r => decide (r.discount_percent = 0)) = [] →
      "4. Average transaction without discount: $nan" ∈ (key_insights df).1) ∧
    (df.rows.filter (fun r => decide (0 < r.discount_percent)) = [] →
      "   Average transaction with discount: $nan" ∈ (key_insights df).1) := by
  have hprod_ne : ((groupby strLeP (fun r => r.product) df.rows).map
      (fun g => (g.1, qsumL (g.2.map (fun r => r.final_price))))) ≠ [] :=
    map_ne_nil_of_ne_nil _ (groupby_ne_nil strLeP (fun r => r.product) h1)
  have hreg_ne : ((groupby strLeP (fun r => r.region) df.rows).map
      (fun g => (g.1, qsumL (g.2.map (fun r => r.final_price))))) ≠ [] :=
    map_ne_nil_of_ne_nil _ (groupby_ne_nil strLeP (fun r => r.region) h1)
  have hcat_ne : ((groupby strLeP (fun r => r.category) df.rows).map
      (fun g => (g.1, qsumL (g.2.map (fun r => r.final_price))))) ≠ [] :=
    map_ne_nil_of_ne_nil _ (groupby_ne_nil strLeP (fun r => r.category) h1)
  obtain ⟨mp, hmp, -, -⟩ := idxmax_spec _ hprod_ne
  obtain ⟨vp, hvp⟩ := listMax_isSome (map_ne_nil_of_ne_nil (fun p => p.2) hprod_ne)
  obtain ⟨mr, hmr, -, -⟩ := idxmax_spec _ hreg_ne
  obtain ⟨mc, hmc, -, -⟩ := idxmax_spec _ hcat_ne
  rw [List.map_map] at hvp
  have h3' : "customer_id" ∈ df.columns := by
    simpa using h3
  refine ⟨?_, ?_, ?_⟩
  · simp [key_insights, h2, hmp, hvp, hmr, hmc, h3']
  · intro hf
    have h4 : ("4. Average transaction without discount: $" ++
        fmtOpt2 (meanQ ((df.rows.filter
          (fun r => decide (r.discount_percent = 0))).map (fun r => r.final_price)))) =
        "4. Average transaction without discount: $nan" := by
      rw [hf]
      rfl
    simp only [key_insights, h2, h4]
    simp [hmp, hvp, hmr, hmc, h3']
  · intro hf
    have h5 : ("   Average transaction with discount: $" ++
        fmtOpt2 (meanQ ((df.rows.filter
          (fun r => decide (0 < r.discount_percent))).map (fun r => r.final_price)))) =
        "   Average transaction with discount: $nan" := by
      rw [hf]
      rfl
    simp only [key_insights, h2, h5]
    simp [hmp, hvp, hmr, hmc, h3']

/-- Witness for the amended C3 at the one-row all-discounted table. -/
theorem claim_insights_empty_subset_witness :
    discTable.rows ≠ [] ∧
      columnsMissing discTable
        ["product", "final_price", "region", "discount_percent", "category"] = none ∧
      discTable.columns.contains "customer_id" = true ∧
      ((key_insights discTable).2 = none ∧
      (discTable.rows.filter (fun r => decide (r.discount_percent = 0)) = [] →
        "4. Average transaction without discount: $nan" ∈ (key_insights discTable).1) ∧
      (discTable.rows.filter (fun r => decide (0 < r.discount_percent)) = [] →
        "   Average transaction with discount: $nan" ∈ (key_insights discTable).1)) :=
  ⟨by decide, by decide, by decide,
    claim_insights_empty_subset discTable (by decide) (by decide) (by decide)⟩

end SalesAnalysis
